import Mathlib

/-!
Shallow embedding of the jackd beanstalkd client (src/index.ts): the wire
codec (command encoders, `validate`), the frame assembler (`processChunk`
with its buffer and `chunkLength` counter), the execution queue
(`flushExecutions`), and the per-command handler steps, together with
theorems checking the specification's claims about them.

Bytes are modelled as `Nat` (each < 256 in practice), byte buffers as
`List Nat`.  JavaScript strings are Lean `String`s; the external runtime
functions the client calls (TextEncoder/TextDecoder, `String.prototype.split`,
`parseInt`, `JSON.stringify`) are modelled on the fragments the client
exercises (UTF-8 text, single-space separators, decimal digit strings).
-/

/-- Protocol delimiter, `DELIMITER` in the source. -/
def DELIMITER : String := "\r\n"

/-- UTF-8 bytes of one code point; models what `TextEncoder` does per character. -/
def utf8Bytes (c : Char) : List Nat :=
  let n := c.toNat
  if n < 128 then [n]
  else if n < 2048 then [192 + n / 64, 128 + n % 64]
  else if n < 65536 then [224 + n / 4096, 128 + n / 64 % 64, 128 + n % 64]
  else [240 + n / 262144, 128 + n / 4096 % 64, 128 + n / 64 % 64, 128 + n % 64]

/-- Models `new TextEncoder().encode(s)`. -/
def utf8Encode (s : String) : List Nat := (s.data.map utf8Bytes).flatten

/-- `new TextEncoder().encode(DELIMITER)`, the delimiter byte pair `[13, 10]`. -/
def delimiterBytes : List Nat := utf8Encode DELIMITER

/-- UTF-8 decoding loop with explicit fuel (one unit per byte suffices);
ill-formed sequences that `TextDecoder` would map to replacement characters
never occur in the byte strings the development evaluates. -/
def utf8DecodeLoop : Nat → List Nat → List Char
  | 0, _ => []
  | _, [] => []
  | fuel + 1, b :: rest =>
    if b < 128 then Char.ofNat b :: utf8DecodeLoop fuel rest
    else if b < 192 then Char.ofNat 65533 :: utf8DecodeLoop fuel rest
    else if b < 224 then
      match rest with
      | b2 :: rest2 => Char.ofNat ((b - 192) * 64 + (b2 - 128)) :: utf8DecodeLoop fuel rest2
      | [] => [Char.ofNat 65533]
    else if b < 240 then
      match rest with
      | b2 :: b3 :: rest3 =>
        Char.ofNat ((b - 224) * 4096 + (b2 - 128) * 64 + (b3 - 128)) :: utf8DecodeLoop fuel rest3
      | _ => [Char.ofNat 65533]
    else
      match rest with
      | b2 :: b3 :: b4 :: rest4 =>
        Char.ofNat ((b - 240) * 262144 + (b2 - 128) * 4096 + (b3 - 128) * 64 + (b4 - 128)) ::
          utf8DecodeLoop fuel rest4
      | _ => [Char.ofNat 65533]

/-- Models `new TextDecoder().decode(bytes)` (UTF-8). -/
def textDecode (bytes : List Nat) : String := String.mk (utf8DecodeLoop bytes.length bytes)

/-- Helper for `jsSplitSpace`: accumulates the current field (reversed). -/
def jsSplitSpaceAux : List Char → List Char → List String
  | [], acc => [String.mk acc.reverse]
  | c :: cs, acc =>
    if c = ' ' then String.mk acc.reverse :: jsSplitSpaceAux cs []
    else jsSplitSpaceAux cs (c :: acc)

/-- Models `s.split(" ")` in JavaScript (split at every single space). -/
def jsSplitSpace (s : String) : List String := jsSplitSpaceAux s.data []

/-- Models `s.startsWith(p)`. -/
def jsStartsWith (s p : String) : Bool := p.data.isPrefixOf s.data

/-- Helper for `parseIntNat`: value of the leading decimal digits. -/
def digitsPrefixVal : List Char → Nat → Nat
  | [], acc => acc
  | c :: cs, acc => if c.isDigit then digitsPrefixVal cs (acc * 10 + (c.toNat - 48)) else acc

/-- Models `parseInt(s)` for the strings the client feeds it (decimal digit
strings from protocol status lines); the NaN outcome on non-numeric input is
not modelled and never exercised. -/
def parseIntNat (s : String) : Nat := digitsPrefixVal s.data 0

/-- The helper `findIndex(array, subarray)` from the source: index of the first
occurrence of `subarray` in `array`, scanning start positions `0` to
`array.length - subarray.length` and comparing element-wise (`none` models the
`-1` return). -/
def findIndex (array subarray : List Nat) : Option Nat :=
  (List.range (array.length + 1 - subarray.length)).find?
    (fun i => decide ((array.drop i).take subarray.length = subarray))

theorem findIndex_bound {array subarray : List Nat} {i : Nat}
    (h : findIndex array subarray = some i) : i + subarray.length ≤ array.length := by
  have hmem := List.mem_of_find?_eq_some h
  have := List.mem_range.mp hmem
  omega

/-- The JavaScript error values the client can raise: `new Error(msg)` from
`validate`, `InvalidResponseError` from `invalidResponse` (message plus the
`response` field), and the `AssertionError` thrown by `assert(...)` on a
falsy required argument. -/
inductive JsError where
  | jsError (message : String)
  | invalidResponse (message : String) (response : String)
  | assertionError
deriving DecidableEq, Repr

/-- `invalidResponse(ascii)` from the source: an `InvalidResponseError` whose
message is the offending line and whose `response` field carries it raw. -/
def invalidResponseErr (ascii : String) : JsError :=
  .invalidResponse ("Unexpected response: " ++ ascii) ascii

/-- `validate(buffer, additionalResponses)` from the source: decode the frame,
throw `new Error(ascii)` when the line starts with one of the universal error
tokens or a per-command token, otherwise return the decoded line. -/
def validate (buffer : List Nat) (additionalResponses : List String) : Except JsError String :=
  let ascii := textDecode buffer
  if (["OUT_OF_MEMORY", "INTERNAL_ERROR", "BAD_FORMAT", "UNKNOWN_COMMAND"]
        ++ additionalResponses).any (fun e => jsStartsWith ascii e)
  then .error (.jsError ascii)
  else .ok ascii

/-- Typed results a handler step can produce: `undef` for a bare `return`,
numbers, strings, and the job records built by the reserve/peek payload steps
(`jobStr` when the payload is decoded to text, `jobRaw` for raw bytes). -/
inductive HValue where
  | undef
  | num (n : Nat)
  | str (s : String)
  | jobStr (id : Nat) (payload : String)
  | jobRaw (id : Nat) (payload : List Nat)
deriving DecidableEq, Repr

/-- The handler steps of the source's command definitions, deep-embedded so an
execution's remaining steps are plain data.  `reserveStatusS`/`reservePayloadS`
are the pair built by `createReserveHandlers` (the closure variable `let id`
they share is modelled as the execution's `store` field, set by the status
step and read by the payload step). -/
inductive Step where
  | putS
  | useS
  | reserveStatusS (additionalResponses : List String)
  | reservePayloadS (decodePayload : Bool)
  | deleteS
  | releaseS
  | buryS
  | touchS
  | watchS
  | ignoreS
  | pauseTubeS
  | kickS
  | kickJobS
  | listTubeUsedS
deriving DecidableEq, Repr

/-- Outcome of running one handler step on one frame: either a normal return
carrying the new closure store, an optional new value for the client's
`chunkLength` (set by the reserve-style status steps), and the returned value,
or a thrown error. -/
inductive StepOut where
  | ok (store : Nat) (setChunk : Option Nat) (value : HValue)
  | err (e : JsError)
deriving DecidableEq, Repr

/-- Field `i` of a split status line, `""` when absent (the source reads
destructured fields of `ascii.split(" ")`). -/
def lineField (ascii : String) (i : Nat) : String := (jsSplitSpace ascii).getD i ""

/-- Run one handler step on one frame, translating each handler from the
source (`put`, `use`, `createReserveHandlers`, `delete`, `release`, `bury`,
`touch`, `watch`, `ignore`, `pauseTube`, `kick`, `kickJob`, `listTubeUsed`). -/
def runStep : Step → Nat → List Nat → StepOut
  | .putS, store, chunk =>
    match validate chunk ["BURIED", "EXPECTED_CRLF", "JOB_TOO_BIG", "DRAINING"] with
    | .error e => .err e
    | .ok ascii =>
      if jsStartsWith ascii "INSERTED" then
        .ok store none (.num (parseIntNat (lineField ascii 1)))
      else .err (invalidResponseErr ascii)
  | .useS, store, chunk =>
    match validate chunk [] with
    | .error e => .err e
    | .ok ascii =>
      if jsStartsWith ascii "USING" then .ok store none (.str (lineField ascii 1))
      else .err (invalidResponseErr ascii)
  | .reserveStatusS additionalResponses, _store, chunk =>
    match validate chunk (["DEADLINE_SOON", "TIMED_OUT"] ++ additionalResponses) with
    | .error e => .err e
    | .ok ascii =>
      if jsStartsWith ascii "RESERVED" then
        .ok (parseIntNat (lineField ascii 1)) (some (parseIntNat (lineField ascii 2))) .undef
      else .err (invalidResponseErr ascii)
  | .reservePayloadS decodePayload, store, chunk =>
    if decodePayload then .ok store none (.jobStr store (textDecode chunk))
    else .ok store none (.jobRaw store chunk)
  | .deleteS, store, chunk =>
    match validate chunk ["NOT_FOUND"] with
    | .error e => .err e
    | .ok ascii =>
      if ascii = "DELETED" then .ok store none .undef else .err (invalidResponseErr ascii)
  | .releaseS, store, chunk =>
    match validate chunk ["BURIED", "NOT_FOUND"] with
    | .error e => .err e
    | .ok ascii =>
      if ascii = "RELEASED" then .ok store none .undef else .err (invalidResponseErr ascii)
  | .buryS, store, chunk =>
    match validate chunk ["NOT_FOUND"] with
    | .error e => .err e
    | .ok ascii =>
      if ascii = "BURIED" then .ok store none .undef else .err (invalidResponseErr ascii)
  | .touchS, store, chunk =>
    match validate chunk ["NOT_FOUND"] with
    | .error e => .err e
    | .ok ascii =>
      if ascii = "TOUCHED" then .ok store none .undef else .err (invalidResponseErr ascii)
  | .watchS, store, chunk =>
    match validate chunk [] with
    | .error e => .err e
    | .ok ascii =>
      if jsStartsWith ascii "WATCHING" then .ok store none (.num (parseIntNat (lineField ascii 1)))
      else .err (invalidResponseErr ascii)
  | .ignoreS, store, chunk =>
    match validate chunk ["NOT_IGNORED"] with
    | .error e => .err e
    | .ok ascii =>
      if jsStartsWith ascii "WATCHING" then .ok store none (.num (parseIntNat (lineField ascii 1)))
      else .err (invalidResponseErr ascii)
  | .pauseTubeS, store, chunk =>
    match validate chunk ["NOT_FOUND"] with
    | .error e => .err e
    | .ok ascii =>
      if ascii = "PAUSED" then .ok store none .undef else .err (invalidResponseErr ascii)
  | .kickS, store, chunk =>
    match validate chunk [] with
    | .error e => .err e
    | .ok ascii =>
      if jsStartsWith ascii "KICKED" then .ok store none (.num (parseIntNat (lineField ascii 1)))
      else .err (invalidResponseErr ascii)
  | .kickJobS, store, chunk =>
    match validate chunk ["NOT_FOUND"] with
    | .error e => .err e
    | .ok ascii =>
      if jsStartsWith ascii "KICKED" then .ok store none .undef
      else .err (invalidResponseErr ascii)
  | .listTubeUsedS, store, chunk =>
    match validate chunk ["NOT_FOUND"] with
    | .error e => .err e
    | .ok ascii =>
      if jsStartsWith ascii "USING" then .ok store none (.str (lineField ascii 1))
      else .err (invalidResponseErr ascii)

/-- One in-flight command: the source's `CommandExecution` (remaining handler
steps plus the one-shot emitter, whose identity is modelled by the ghost
`tag`), together with `store` for the closure variable shared by a
reserve/peek handler pair. -/
structure CommandExecution where
  tag : Nat
  store : Nat
  handlers : List Step
deriving DecidableEq, Repr

/-- A completion signal fired on an execution's emitter: `resolve` with the
final value or `reject` with the thrown error. -/
inductive Event where
  | resolve (tag : Nat) (value : HValue)
  | reject (tag : Nat) (e : JsError)
deriving DecidableEq, Repr

/-- The tag of the execution whose emitter fired the event. -/
def evTag : Event → Nat
  | .resolve t _ => t
  | .reject t _ => t

/-- The mutable state of `JackdClient` that the framing and dispatch code
touches: `buffer`, `chunkLength`, `messages`, `executions`, plus two ghost
logs recording observable history — `events` (emitter firings, in order) and
`emitted` (every frame pushed onto `messages`, in order). -/
structure JackdClient where
  buffer : List Nat
  chunkLength : Nat
  messages : List (List Nat)
  executions : List CommandExecution
  events : List Event
  emitted : List (List Nat)
deriving DecidableEq, Repr

/-- A fresh client: empty buffer, no outstanding payload bytes, no messages,
no pending executions. -/
def emptyClient : JackdClient := ⟨[], 0, [], [], [], []⟩

/-- Result of the inner `while` loop of `flushExecutions` on the head
execution: its remaining handlers and closure store, the client's
`chunkLength`, the remaining messages, and how the loop ended. -/
inductive InnerOut where
  | completed (value : HValue)
  | failed (e : JsError)
  | paused
deriving DecidableEq, Repr

/-- State threaded by the inner `while` loop of `flushExecutions`. -/
structure RunOut where
  handlers : List Step
  store : Nat
  chunkLength : Nat
  messages : List (List Nat)
  outcome : InnerOut
deriving DecidableEq, Repr

/-- The inner `while (handlers.length && this.messages.length)` loop of
`flushExecutions`: shift a handler and a message, run the handler; on a throw
stop with `failed`; when the handlers are exhausted stop with `completed`
(the `break` after `emitter.emit("resolve", ...)`); when either list runs out
first, stop with `paused` leaving the execution at the head of the queue. -/
def runHandlers : List Step → Nat → Nat → List (List Nat) → RunOut
  | [], store, chunkLength, messages => ⟨[], store, chunkLength, messages, .paused⟩
  | h :: hs, store, chunkLength, [] => ⟨h :: hs, store, chunkLength, [], .paused⟩
  | h :: hs, store, chunkLength, m :: ms =>
    match runStep h store m with
    | .err e => ⟨hs, store, chunkLength, ms, .failed e⟩
    | .ok store' setChunk v =>
      let chunkLength' := setChunk.getD chunkLength
      if hs.isEmpty then ⟨hs, store', chunkLength', ms, .completed v⟩
      else runHandlers hs store' chunkLength' ms

/-- The outer `for (let i = 0; i < this.executions.length; i++)` loop of
`flushExecutions`, with explicit fuel (one unit per iteration; the entry point
supplies `executions.length + 1`, which is sufficient because every iteration
either increments `i` or removes the head execution).  Each iteration bails
out when no messages remain, otherwise runs the head execution's handlers:
on completion or failure the execution is shifted off and its emitter fires
(`i--` then `i++` leaves `i` unchanged); on a pause the partially-consumed
execution stays at the head and `i` increments. -/
def flushLoop : Nat → Nat → JackdClient → JackdClient
  | 0, _, c => c
  | fuel + 1, i, c =>
    if i < c.executions.length then
      if c.messages.isEmpty then c
      else
        match c.executions with
        | [] => c
        | ex :: rest =>
          match runHandlers ex.handlers ex.store c.chunkLength c.messages with
          | ⟨hs, st, cl, msgs, .paused⟩ =>
            flushLoop fuel (i + 1)
              { c with executions := { ex with handlers := hs, store := st } :: rest,
                       chunkLength := cl, messages := msgs }
          | ⟨_, _, cl, msgs, .completed v⟩ =>
            flushLoop fuel i
              { c with executions := rest, chunkLength := cl, messages := msgs,
                       events := c.events ++ [.resolve ex.tag v] }
          | ⟨_, _, cl, msgs, .failed e⟩ =>
            flushLoop fuel i
              { c with executions := rest, chunkLength := cl, messages := msgs,
                       events := c.events ++ [.reject ex.tag e] }
    else c

/-- `flushExecutions()` from the source. -/
def flushExecutions (c : JackdClient) : JackdClient :=
  flushLoop (c.executions.length + 1) 0 c

/-- `processChunk(head)` from the source, with explicit fuel (the entry point
supplies `head.length + 1`, sufficient because every recursive call is on a
strictly shorter tail).  With a positive `chunkLength` the buffered bytes are
only counted: the code waits until `chunkLength - head.length ≤ -2` and then
uses `index = head.length - 2` and zeroes the counter; otherwise it scans for
the delimiter with `findIndex`.  When an index was produced, the bytes before
it are pushed as a frame, `flushExecutions` runs, and the code recurses on the
tail after the two delimiter bytes, storing it as the new buffer. -/
def processChunkFuel : Nat → JackdClient → List Nat → JackdClient
  | 0, c, _ => c
  | fuel + 1, c, head =>
    if 0 < c.chunkLength then
      if (c.chunkLength : Int) - (head.length : Int) > -2 then c
      else
        let index := head.length - 2
        let c1 := { c with chunkLength := 0,
                           messages := c.messages ++ [head.take index],
                           emitted := c.emitted ++ [head.take index] }
        let c2 := flushExecutions c1
        let tail := head.drop (index + 2)
        processChunkFuel fuel { c2 with buffer := tail } tail
    else
      match findIndex head delimiterBytes with
      | none => c
      | some index =>
        let c1 := { c with messages := c.messages ++ [head.take index],
                           emitted := c.emitted ++ [head.take index] }
        let c2 := flushExecutions c1
        let tail := head.drop (index + 2)
        processChunkFuel fuel { c2 with buffer := tail } tail

/-- `processChunk(head)` at its sufficient fuel. -/
def processChunk (c : JackdClient) (head : List Nat) : JackdClient :=
  processChunkFuel (head.length + 1) c head

/-- The `socket.on("data", ...)` listener: append the incoming bytes to the
buffer and run `processChunk` on the whole buffer. -/
def onData (c : JackdClient) (incoming : List Nat) : JackdClient :=
  let newBuffer := c.buffer ++ incoming
  processChunk { c with buffer := newBuffer } newBuffer

/-- Deliver a list of data chunks, one "data" event at a time. -/
def deliverAll (c : JackdClient) (chunks : List (List Nat)) : JackdClient :=
  chunks.foldl onData c

/-- The queueing part of `createCommandHandler`'s returned function: push a
fresh execution (a copy of the command's handler steps plus a fresh emitter,
identified by `tag`) onto the tail of `executions`. -/
def submitCommand (c : JackdClient) (tag : Nat) (handlers : List Step) : JackdClient :=
  { c with executions := c.executions ++ [⟨tag, 0, handlers⟩] }

/-- A connection as a command invocation sees it: the client state plus the
log of all bytes written to the socket. -/
structure Conn where
  client : JackdClient
  written : List Nat
deriving DecidableEq, Repr

/-- The full body of `createCommandHandler`'s returned function: run the
encoder; if it throws, the error propagates before any bytes are written and
before any execution is pushed; otherwise write the encoded bytes and push
the execution. -/
def invokeCommand (conn : Conn) (tag : Nat) (enc : Except JsError (List Nat))
    (handlers : List Step) : Conn :=
  match enc with
  | .error _ => conn
  | .ok bytes => ⟨submitCommand conn.client tag handlers, conn.written ++ bytes⟩

/-- `x || d` on a JavaScript number that may be `undefined`: `undefined` and
`0` are falsy, so both select the default. -/
def jsOr (x : Option Nat) (d : Nat) : Nat :=
  match x with
  | none => d
  | some n => if n = 0 then d else n

/-- Interpolation of a possibly-`undefined` string into a template literal:
`undefined` prints as "undefined". -/
def jsStringOrUndefined (s : Option String) : String :=
  match s with
  | none => "undefined"
  | some t => t

/-- A primitive JSON field value; object-typed `put` payloads are modelled as
flat objects over these (the fragment of `JSON.stringify` the claims touch). -/
inductive JsonPrim where
  | jnull
  | jbool (b : Bool)
  | jnum (n : Nat)
  | jstr (s : String)
deriving DecidableEq, Repr

/-- JSON string escaping as `JSON.stringify` performs it on the characters
exercised here (quote, backslash, and the common control characters). -/
def jsonEscapeChar (c : Char) : String :=
  if c = '"' then "\\\""
  else if c = '\\' then "\\\\"
  else if c = '\n' then "\\n"
  else if c = '\r' then "\\r"
  else if c = '\t' then "\\t"
  else String.mk [c]

/-- Models `JSON.stringify` on a primitive value. -/
def jsonStringifyPrim : JsonPrim → String
  | .jnull => "null"
  | .jbool true => "true"
  | .jbool false => "false"
  | .jnum n => toString n
  | .jstr s => "\"" ++ String.join (s.data.map jsonEscapeChar) ++ "\""

/-- Models `JSON.stringify` on a flat object. -/
def jsonStringifyObj (fields : List (String × JsonPrim)) : String :=
  "\x7b" ++
    String.intercalate ","
      (fields.map (fun f => "\"" ++ String.join (f.1.data.map jsonEscapeChar) ++ "\":" ++
        jsonStringifyPrim f.2)) ++ "\x7d"

/-- Models `JSON.stringify` applied to a `Uint8Array`: typed arrays serialize
as plain objects with their indices as keys, e.g. `[104, 105]` becomes the
text `\x7b"0":104,"1":105\x7d`. -/
def jsonStringifyU8 (bytes : List Nat) : String :=
  "\x7b" ++
    String.intercalate ","
      ((List.range bytes.length).map (fun i => "\"" ++ toString i ++ "\":" ++
        toString (bytes.getD i 0))) ++ "\x7d"

/-- The `JackdPayload` union `Uint8Array | string | object` of the source. -/
inductive JackdPayload where
  | u8 (bytes : List Nat)
  | str (s : String)
  | obj (fields : List (String × JsonPrim))
deriving DecidableEq, Repr

/-- JavaScript truthiness of a payload value: `Uint8Array` and object values
are always truthy; the empty string is falsy. -/
def payloadTruthy : JackdPayload → Bool
  | .u8 _ => true
  | .obj _ => true
  | .str s => s ≠ ""

/-- The `JackdPutOpts` argument of `put`; each omitted field is `undefined`. -/
structure JackdPutOpts where
  priority : Option Nat
  delay : Option Nat
  ttr : Option Nat
deriving DecidableEq, Repr

/-- The `put` encoder from the source: `assert(payload)`; a payload of
`typeof "object"` — which includes `Uint8Array` — is `JSON.stringify`ed and
the result UTF-8 encoded, a string payload is UTF-8 encoded directly; then
the command line `put <priority||0> <delay||0> <ttr||60> <body.length>\r\n`
is emitted followed by the body bytes and the delimiter.  `putBody` is the
body computation hoisted out of the encoder. -/
def putBody : JackdPayload → List Nat
  | .u8 bytes => utf8Encode (jsonStringifyU8 bytes)
  | .obj fields => utf8Encode (jsonStringifyObj fields)
  | .str s => utf8Encode s

/-- The command-line and concatenation part of the `put` encoder. -/
def putEncode (payload : Option JackdPayload) (opts : JackdPutOpts) :
    Except JsError (List Nat) :=
  match payload with
  | none => .error .assertionError
  | some p =>
    if payloadTruthy p then
      let command := utf8Encode ("put " ++ toString (jsOr opts.priority 0) ++ " " ++
        toString (jsOr opts.delay 0) ++ " " ++ toString (jsOr opts.ttr 60) ++ " " ++
        toString (putBody p).length ++ "\r\n")
      .ok (command ++ putBody p ++ delimiterBytes)
    else .error .assertionError

/-- Shared shape of the encoders that `assert` a tube name and then emit
`<verb> <tube>\r\n`. -/
def tubeCommandEncode (verb : String) (tube : Option String) : Except JsError (List Nat) :=
  match tube with
  | none => .error .assertionError
  | some t => if t = "" then .error .assertionError else .ok (utf8Encode (verb ++ " " ++ t ++ "\r\n"))

/-- The `use` encoder: `assert(tube)`, then `use <tube>\r\n`. -/
def useEncode (tube : Option String) : Except JsError (List Nat) :=
  tubeCommandEncode "use" tube

/-- The `watch` encoder: `assert(tube)`, then `watch <tube>\r\n`. -/
def watchEncode (tube : Option String) : Except JsError (List Nat) :=
  tubeCommandEncode "watch" tube

/-- The `ignore` encoder: `assert(tube)`, then `ignore <tube>\r\n`. -/
def ignoreEncode (tube : Option String) : Except JsError (List Nat) :=
  tubeCommandEncode "ignore" tube

/-- The `statsTube` encoder: `assert(tube)`, then `stats-tube <tube>\r\n`. -/
def statsTubeEncode (tube : Option String) : Except JsError (List Nat) :=
  tubeCommandEncode "stats-tube" tube

/-- Shared shape of the encoders that `assert` a numeric argument (so both a
missing id and an explicit `0` are rejected, `0` being falsy) and then emit
`<verb> <n>\r\n`. -/
def idCommandEncode (verb : String) (id : Option Nat) : Except JsError (List Nat) :=
  match id with
  | none => .error .assertionError
  | some n => if n = 0 then .error .assertionError
              else .ok (utf8Encode (verb ++ " " ++ toString n ++ "\r\n"))

/-- The `delete` encoder: `assert(id)`, then `delete <id>\r\n`. -/
def deleteEncode (id : Option Nat) : Except JsError (List Nat) :=
  idCommandEncode "delete" id

/-- The `touch` encoder: `assert(id)`, then `touch <id>\r\n`. -/
def touchEncode (id : Option Nat) : Except JsError (List Nat) :=
  idCommandEncode "touch" id

/-- The `peek` encoder: `assert(id)`, then `peek <id>\r\n`. -/
def peekEncode (id : Option Nat) : Except JsError (List Nat) :=
  idCommandEncode "peek" id

/-- The `kick` encoder: `assert(bound)`, then `kick <bound>\r\n`. -/
def kickEncode (bound : Option Nat) : Except JsError (List Nat) :=
  idCommandEncode "kick" bound

/-- The `kickJob` encoder: `assert(id)`, then `kick-job <id>\r\n`. -/
def kickJobEncode (id : Option Nat) : Except JsError (List Nat) :=
  idCommandEncode "kick-job" id

/-- The `statsJob` encoder: `assert(id)`, then `stats-job <id>\r\n`. -/
def statsJobEncode (id : Option Nat) : Except JsError (List Nat) :=
  idCommandEncode "stats-job" id

/-- The `JackdReleaseOpts` argument of `release`. -/
structure JackdReleaseOpts where
  priority : Option Nat
  delay : Option Nat
deriving DecidableEq, Repr

/-- The `release` encoder: `assert(id)`, then
`release <id> <priority||0> <delay||0>\r\n`. -/
def releaseEncode (id : Option Nat) (opts : JackdReleaseOpts) : Except JsError (List Nat) :=
  match id with
  | none => .error .assertionError
  | some n => if n = 0 then .error .assertionError
              else .ok (utf8Encode ("release " ++ toString n ++ " " ++
                toString (jsOr opts.priority 0) ++ " " ++ toString (jsOr opts.delay 0) ++ "\r\n"))

/-- The `bury` encoder: `assert(id)`, then `bury <id> <priority||0>\r\n`. -/
def buryEncode (id : Option Nat) (priority : Option Nat) : Except JsError (List Nat) :=
  match id with
  | none => .error .assertionError
  | some n => if n = 0 then .error .assertionError
              else .ok (utf8Encode ("bury " ++ toString n ++ " " ++
                toString (jsOr priority 0) ++ "\r\n"))

/-- The `pauseTube` encoder, exactly as in the source: no `assert` on the tube
name and no trailing delimiter — it emits `pause-tube <tube> <delay||0>`. -/
def pauseTubeEncode (tube : Option String) (delay : Option Nat) : Except JsError (List Nat) :=
  .ok (utf8Encode ("pause-tube " ++ jsStringOrUndefined tube ++ " " ++ toString (jsOr delay 0)))

/-- The `reserve` (and `reserveRaw`) encoder: `reserve\r\n`. -/
def reserveEncode : Except JsError (List Nat) := .ok (utf8Encode "reserve\r\n")

/-- The `reserveWithTimeout` encoder: `reserve-with-timeout <seconds>\r\n`. -/
def reserveWithTimeoutEncode (seconds : Nat) : Except JsError (List Nat) :=
  .ok (utf8Encode ("reserve-with-timeout " ++ toString seconds ++ "\r\n"))

/-- The `reserveJob` encoder: `reserve-job <id>\r\n` (no `assert`). -/
def reserveJobEncode (id : Nat) : Except JsError (List Nat) :=
  .ok (utf8Encode ("reserve-job " ++ toString id ++ "\r\n"))

/-- The `peekReady` encoder. -/
def peekReadyEncode : Except JsError (List Nat) := .ok (utf8Encode "peek-ready\r\n")

/-- The `peekDelayed` encoder. -/
def peekDelayedEncode : Except JsError (List Nat) := .ok (utf8Encode "peek-delayed\r\n")

/-- The `peekBuried` encoder. -/
def peekBuriedEncode : Except JsError (List Nat) := .ok (utf8Encode "peek-buried\r\n")

/-- The `stats` encoder. -/
def statsEncode : Except JsError (List Nat) := .ok (utf8Encode "stats\r\n")

/-- The `listTubes` encoder. -/
def listTubesEncode : Except JsError (List Nat) := .ok (utf8Encode "list-tubes\r\n")

/-- The `listTubesWatched` encoder. -/
def listTubesWatchedEncode : Except JsError (List Nat) :=
  .ok (utf8Encode "list-tubes-watched\r\n")

/-- The `listTubeUsed` encoder. -/
def listTubeUsedEncode : Except JsError (List Nat) := .ok (utf8Encode "list-tube-used\r\n")

/-- The handler list of `put`. -/
def putHandlers : List Step := [.putS]

/-- The handler list built by `createReserveHandlers`. -/
def reserveHandlers (additionalResponses : List String) (decodePayload : Bool) : List Step :=
  [.reserveStatusS additionalResponses, .reservePayloadS decodePayload]

/-- The handler list of `delete`. -/
def deleteHandlers : List Step := [.deleteS]

/-- Decidable equality for `Except`, needed to state encoder results
decidably. -/
def exceptDecEq {ε α : Type} [DecidableEq ε] [DecidableEq α] : DecidableEq (Except ε α)
  | .error a, .error b =>
    if h : a = b then .isTrue (by rw [h]) else .isFalse (fun hc => by cases hc; exact h rfl)
  | .error _, .ok _ => .isFalse (fun hc => by cases hc)
  | .ok _, .error _ => .isFalse (fun hc => by cases hc)
  | .ok a, .ok b =>
    if h : a = b then .isTrue (by rw [h]) else .isFalse (fun hc => by cases hc; exact h rfl)

instance {ε α : Type} [DecidableEq ε] [DecidableEq α] : DecidableEq (Except ε α) :=
  exceptDecEq

/-- The tags of the pending executions, in queue order. -/
def tagsOf (c : JackdClient) : List Nat := c.executions.map CommandExecution.tag

/-- The tags of the completion events fired so far, in firing order. -/
def evTags (c : JackdClient) : List Nat := c.events.map evTag

/-- `QueueProgress a b`: state `b` extends state `a` by completing (resolving
or rejecting) exactly the first `k` pending executions of `a`, in queue
order, and leaving the rest pending — the shape of every step of the
dispatch machinery. -/
def QueueProgress (a b : JackdClient) : Prop :=
  ∃ k, evTags b = evTags a ++ (tagsOf a).take k ∧ tagsOf b = (tagsOf a).drop k

theorem queueProgress_of_eq {a b : JackdClient} (h1 : evTags b = evTags a)
    (h2 : tagsOf b = tagsOf a) : QueueProgress a b :=
  ⟨0, by simp [h1, h2]⟩

theorem queueProgress_rfl (a : JackdClient) : QueueProgress a a :=
  queueProgress_of_eq rfl rfl

theorem queueProgress_trans {a b c : JackdClient} (hab : QueueProgress a b)
    (hbc : QueueProgress b c) : QueueProgress a c := by
  obtain ⟨k1, h1, h2⟩ := hab
  obtain ⟨k2, h3, h4⟩ := hbc
  refine ⟨k1 + k2, ?_, ?_⟩
  · rw [h3, h1, h2, List.take_add, List.append_assoc]
  · rw [h4, h2, List.drop_drop, Nat.add_comm]

theorem queueProgress_update_buffer (a b : JackdClient) (tail : List Nat)
    (h : QueueProgress a b) : QueueProgress a { b with buffer := tail } := by
  obtain ⟨k, h1, h2⟩ := h
  exact ⟨k, h1, h2⟩

theorem flushLoop_progress : ∀ (fuel i : Nat) (c : JackdClient),
    QueueProgress c (flushLoop fuel i c) := by
  intro fuel
  induction fuel with
  | zero => intro i c; exact queueProgress_rfl c
  | succ fuel ih =>
    intro i c
    by_cases hlen : i < c.executions.length
    · by_cases hmsg : c.messages.isEmpty
      · simp only [flushLoop, if_pos hlen, if_pos hmsg]
        exact queueProgress_rfl c
      · rcases hE : c.executions with _ | ⟨ex, rest⟩
        · rw [hE] at hlen
          simp only [flushLoop, hE, if_pos hlen, if_neg hmsg]
          exact queueProgress_rfl c
        · rw [hE] at hlen
          rcases hR : runHandlers ex.handlers ex.store c.chunkLength c.messages
            with ⟨hs, st, cl, msgs, out⟩
          cases out with
          | paused =>
            simp only [flushLoop, hE, if_pos hlen, if_neg hmsg, hR]
            refine queueProgress_trans ?_ (ih (i + 1) _)
            exact queueProgress_of_eq rfl (by simp [tagsOf, hE])
          | completed v =>
            simp only [flushLoop, hE, if_pos hlen, if_neg hmsg, hR]
            refine queueProgress_trans ?_ (ih i _)
            exact ⟨1, by simp [evTags, tagsOf, hE, evTag], by simp [tagsOf, hE]⟩
          | failed e =>
            simp only [flushLoop, hE, if_pos hlen, if_neg hmsg, hR]
            refine queueProgress_trans ?_ (ih i _)
            exact ⟨1, by simp [evTags, tagsOf, hE, evTag], by simp [tagsOf, hE]⟩
    · simp only [flushLoop, if_neg hlen]
      exact queueProgress_rfl c

theorem flushExecutions_progress (c : JackdClient) : QueueProgress c (flushExecutions c) :=
  flushLoop_progress _ 0 c

theorem processStep_progress (c c1 : JackdClient) (tail : List Nat) (fuel : Nat)
    (hev : c1.events = c.events) (hex : c1.executions = c.executions)
    (ih : ∀ (c2 : JackdClient) (head : List Nat), QueueProgress c2 (processChunkFuel fuel c2 head)) :
    QueueProgress c (processChunkFuel fuel { flushExecutions c1 with buffer := tail } tail) := by
  have h1 : QueueProgress c c1 :=
    queueProgress_of_eq (by simp [evTags, hev]) (by simp [tagsOf, hex])
  have h2 : QueueProgress c1 { flushExecutions c1 with buffer := tail } :=
    queueProgress_update_buffer _ _ _ (flushExecutions_progress c1)
  exact queueProgress_trans h1 (queueProgress_trans h2 (ih _ _))

theorem processChunkFuel_progress : ∀ (fuel : Nat) (c : JackdClient) (head : List Nat),
    QueueProgress c (processChunkFuel fuel c head) := by
  intro fuel
  induction fuel with
  | zero => intro c head; exact queueProgress_rfl c
  | succ fuel ih =>
    intro c head
    by_cases h0 : 0 < c.chunkLength
    · by_cases h1 : (c.chunkLength : Int) - (head.length : Int) > -2
      · simp only [processChunkFuel, if_pos h0, if_pos h1]
        exact queueProgress_rfl c
      · simp only [processChunkFuel, if_pos h0, if_neg h1]
        exact processStep_progress c _ _ fuel rfl rfl ih
    · rcases hf : findIndex head delimiterBytes with _ | index
      · simp only [processChunkFuel, if_neg h0, hf]
        exact queueProgress_rfl c
      · simp only [processChunkFuel, if_neg h0, hf]
        exact processStep_progress c _ _ fuel rfl rfl ih

theorem processChunk_progress (c : JackdClient) (head : List Nat) :
    QueueProgress c (processChunk c head) :=
  processChunkFuel_progress _ c head

theorem onData_progress (c : JackdClient) (incoming : List Nat) :
    QueueProgress c (onData c incoming) :=
  queueProgress_trans (queueProgress_of_eq rfl rfl) (processChunk_progress _ _)

theorem deliverAll_progress : ∀ (chunks : List (List Nat)) (c : JackdClient),
    QueueProgress c (deliverAll c chunks) := by
  intro chunks
  induction chunks with
  | nil => intro c; exact queueProgress_rfl c
  | cons ch chs ihc =>
    intro c
    exact queueProgress_trans (onData_progress c ch) (ihc (onData c ch))

/-- Submit a list of commands (tag, handler steps) in order on a fresh client. -/
def submitAll (cmds : List (Nat × List Step)) : JackdClient :=
  cmds.foldl (fun c p => submitCommand c p.1 p.2) emptyClient

theorem submitFold_spec : ∀ (cmds : List (Nat × List Step)) (c : JackdClient),
    tagsOf (cmds.foldl (fun c p => submitCommand c p.1 p.2) c) = tagsOf c ++ cmds.map Prod.fst
    ∧ evTags (cmds.foldl (fun c p => submitCommand c p.1 p.2) c) = evTags c := by
  intro cmds
  induction cmds with
  | nil => intro c; simp
  | cons p ps ihc =>
    intro c
    obtain ⟨h1, h2⟩ := ihc (submitCommand c p.1 p.2)
    refine ⟨?_, ?_⟩
    · rw [List.foldl_cons, h1]
      simp [submitCommand, tagsOf]
    · rw [List.foldl_cons, h2]
      simp [submitCommand, evTags]

/-- A client with a pending `reserve` (tag 0) followed by a pending `delete`
(tag 1), awaiting their pipelined responses. -/
def reserveThenDeleteClient : JackdClient :=
  submitCommand (submitCommand emptyClient 0 (reserveHandlers [] true)) 1 deleteHandlers

/-- Claim C1: delivering a valid pipelined response stream
`RESERVED 1 5\r\nhello\r\nDELETED\r\n` in one piece is claimed to produce the
same frame sequence as delivering it split after the reserve response.  It
does not: in one piece, `processChunk` computes the payload frame boundary as
`head.length - 2` instead of `chunkLength`, so the payload frame swallows the
pipelined `DELETED` response (`hello\r\nDELETED`), while the split delivery
produces the three correct frames. -/
theorem claim1_fragmentation_dependent :
    (deliverAll reserveThenDeleteClient
        [utf8Encode "RESERVED 1 5\r\nhello\r\n" ++ utf8Encode "DELETED\r\n"]).emitted
      = [utf8Encode "RESERVED 1 5", utf8Encode "hello\r\nDELETED"]
    ∧ (deliverAll reserveThenDeleteClient
        [utf8Encode "RESERVED 1 5\r\nhello\r\n", utf8Encode "DELETED\r\n"]).emitted
      = [utf8Encode "RESERVED 1 5", utf8Encode "hello", utf8Encode "DELETED"]
    ∧ (deliverAll reserveThenDeleteClient
        [utf8Encode "RESERVED 1 5\r\nhello\r\n" ++ utf8Encode "DELETED\r\n"]).emitted
      ≠ (deliverAll reserveThenDeleteClient
        [utf8Encode "RESERVED 1 5\r\nhello\r\n", utf8Encode "DELETED\r\n"]).emitted := by
  exact ⟨by decide, by decide, by decide⟩

/-- A client mid-reserve: the status step has run (`store = 1`,
`chunkLength = 5`, the payload step remains) and the buffer holds the five
payload bytes, the delimiter, and a pipelined one-byte response `X\r\n`. -/
def midReserveClient : JackdClient :=
  { buffer := utf8Encode "hello\r\nX\r\n", chunkLength := 5, messages := [],
    executions := [⟨0, 1, [.reservePayloadS true]⟩], events := [], emitted := [] }

/-- Claim C2: with `chunkLength = 5` and 10 bytes buffered, the claim says the
first 5 bytes are emitted as the payload frame, the 2 delimiter bytes after
them discarded, and the remaining `X\r\n` kept for subsequent frames.  The
code instead emits the first `head.length - 2 = 8` bytes (`hello\r\nX`) as
the payload frame and consumes the entire buffer. -/
theorem claim2_payload_frame_overrun :
    (processChunk midReserveClient (utf8Encode "hello\r\nX\r\n")).emitted
      = [(utf8Encode "hello\r\nX\r\n").take 8]
    ∧ (utf8Encode "hello\r\nX\r\n").take 8 ≠ (utf8Encode "hello\r\nX\r\n").take 5
    ∧ (processChunk midReserveClient (utf8Encode "hello\r\nX\r\n")).buffer = []
    ∧ (processChunk midReserveClient (utf8Encode "hello\r\nX\r\n")).events
      = [.resolve 0 (.jobStr 1 "hello\r\nX")] := by
  exact ⟨by decide, by decide, by decide, by decide⟩

/-- Claim C3: while `chunkLength` is positive the buffered bytes are only
counted, never searched for the delimiter — `processChunk` leaves the state
untouched whenever fewer than `chunkLength + 2` bytes are buffered, whatever
those bytes are; and a put payload containing a literal `\r\n` round-trips
through submit and reserve byte-for-byte. -/
theorem claim3_payload_bytes_counted_not_scanned :
    (∀ (c : JackdClient) (head : List Nat), 0 < c.chunkLength →
        head.length < c.chunkLength + 2 → processChunk c head = c)
    ∧ putEncode (some (.str "this job should not fail!\r\n")) ⟨none, none, none⟩
        = .ok (utf8Encode "put 0 0 60 27\r\nthis job should not fail!\r\n\r\n")
    ∧ (onData (submitCommand emptyClient 0 (reserveHandlers [] true))
          (utf8Encode "RESERVED 1 27\r\nthis job should not fail!\r\n\r\n")).events
        = [.resolve 0 (.jobStr 1 "this job should not fail!\r\n")] := by
  refine ⟨?_, by decide, by decide⟩
  intro c head h0 h2
  have hwait : (c.chunkLength : Int) - (head.length : Int) > -2 := by omega
  simp only [processChunk, processChunkFuel, if_pos h0, if_pos hwait]

/-- Witness for claim C3: a client owing 5 payload bytes with only 3 bytes
arrived (bytes that even contain no delimiter scan candidates) is left
untouched. -/
theorem claim3_witness :
    processChunk midReserveClient (utf8Encode "abc") = midReserveClient :=
  claim3_payload_bytes_counted_not_scanned.1 midReserveClient (utf8Encode "abc")
    (by decide) (by decide)

/-- Claim C4: for any commands submitted in order on one connection and any
chunking of the response bytes, the completion events fire in exactly
submission order — after any delivery, the fired completions are precisely
the first `k` submitted tags, in order, and the still-pending executions are
the remaining tags, in order. -/
theorem claim4_fifo_completion_order (cmds : List (Nat × List Step))
    (chunks : List (List Nat)) :
    ∃ k, (deliverAll (submitAll cmds) chunks).events.map evTag = (cmds.map Prod.fst).take k
       ∧ (deliverAll (submitAll cmds) chunks).executions.map CommandExecution.tag
           = (cmds.map Prod.fst).drop k := by
  obtain ⟨k, h1, h2⟩ := deliverAll_progress chunks (submitAll cmds)
  have ht : tagsOf (submitAll cmds) = cmds.map Prod.fst := by
    rw [submitAll, (submitFold_spec cmds emptyClient).1]
    simp [tagsOf, emptyClient]
  have he : evTags (submitAll cmds) = [] := by
    rw [submitAll, (submitFold_spec cmds emptyClient).2]
    simp [evTags, emptyClient]
  rw [ht, he] at h1
  rw [ht] at h2
  refine ⟨k, ?_, h2⟩
  simpa [evTags] using h1

/-- A client with a pending `delete` (tag 0) followed by a pending `put`
(tag 1). -/
def notFoundThenPutClient : JackdClient :=
  submitCommand (submitCommand emptyClient 0 deleteHandlers) 1 putHandlers

/-- Claim C5: a handler step that throws rejects its own command with the
error and pops it from the head of the queue, after which flushing continues
exactly as on the client with that command already removed (the queue is not
stalled); concretely, a `delete` fed `NOT_FOUND` rejects with an error whose
message is the raw status line `NOT_FOUND`, and the queued `put` behind it
still resolves from the following `INSERTED 5` frame. -/
theorem claim5_failure_isolation :
    (∀ (c : JackdClient) (ex : CommandExecution) (rest : List CommandExecution) (e : JsError),
        c.executions = ex :: rest → c.messages.isEmpty = false →
        (runHandlers ex.handlers ex.store c.chunkLength c.messages).outcome = .failed e →
        flushExecutions c
          = flushExecutions
              { c with executions := rest,
                       chunkLength :=
                         (runHandlers ex.handlers ex.store c.chunkLength c.messages).chunkLength,
                       messages :=
                         (runHandlers ex.handlers ex.store c.chunkLength c.messages).messages,
                       events := c.events ++ [.reject ex.tag e] })
    ∧ (deliverAll notFoundThenPutClient [utf8Encode "NOT_FOUND\r\nINSERTED 5\r\n"]).events
        = [.reject 0 (.jsError "NOT_FOUND"), .resolve 1 (.num 5)]
    ∧ (deliverAll notFoundThenPutClient [utf8Encode "NOT_FOUND\r\nINSERTED 5\r\n"]).executions
        = [] := by
  refine ⟨?_, by decide, by decide⟩
  intro c ex rest e hE hM hO
  rcases hR : runHandlers ex.handlers ex.store c.chunkLength c.messages
    with ⟨hs, st, cl, msgs, out⟩
  rw [hR] at hO
  have hO' : out = .failed e := hO
  subst hO'
  simp [flushExecutions, flushLoop, hE, hM, hR]

/-- A client whose head execution is a `delete` about to be fed `NOT_FOUND`,
with a `put` queued behind it. -/
def deleteRejectClient : JackdClient :=
  { buffer := [], chunkLength := 0, messages := [utf8Encode "NOT_FOUND"],
    executions := [⟨0, 0, [.deleteS]⟩, ⟨1, 0, [.putS]⟩], events := [], emitted := [] }

/-- Witness for claim C5: the failure-isolation equation at the concrete
`NOT_FOUND` rejection. -/
theorem claim5_witness :
    flushExecutions deleteRejectClient
      = flushExecutions
          { deleteRejectClient with
              executions := [⟨1, 0, [.putS]⟩],
              chunkLength :=
                (runHandlers [Step.deleteS] 0 0 [utf8Encode "NOT_FOUND"]).chunkLength,
              messages := (runHandlers [Step.deleteS] 0 0 [utf8Encode "NOT_FOUND"]).messages,
              events := [.reject 0 (.jsError "NOT_FOUND")] } :=
  claim5_failure_isolation.1 deleteRejectClient ⟨0, 0, [.deleteS]⟩ [⟨1, 0, [.putS]⟩]
    (.jsError "NOT_FOUND") rfl rfl (by decide)

/-- Claim C6: the claim says every command encoder's output ends with the
protocol delimiter, but the `pauseTube` encoder emits `pause-tube foo 0`
with no trailing `\r\n`. -/
theorem claim6_pauseTube_missing_delimiter :
    pauseTubeEncode (some "foo") none = .ok (utf8Encode "pause-tube foo 0")
    ∧ (utf8Encode "pause-tube foo 0").drop ((utf8Encode "pause-tube foo 0").length - 2)
        ≠ delimiterBytes := by
  exact ⟨by decide, by decide⟩

/-- Claim C7: the claim says a `Uint8Array` payload is appended verbatim with
its byte length on the command line, but `typeof payload === "object"` is
true of a `Uint8Array`, so the bytes `[104, 105]` are `JSON.stringify`ed to
the 17-byte text `\x7b"0":104,"1":105\x7d` instead of being sent as the
2 raw bytes. -/
theorem claim7_uint8array_json_stringified :
    putEncode (some (.u8 [104, 105])) ⟨none, none, none⟩
      = .ok (utf8Encode "put 0 0 60 17\r\n\x7b\"0\":104,\"1\":105\x7d\r\n")
    ∧ utf8Encode "put 0 0 60 17\r\n\x7b\"0\":104,\"1\":105\x7d\r\n"
      ≠ utf8Encode "put 0 0 60 2\r\n" ++ [104, 105] ++ delimiterBytes := by
  exact ⟨by decide, by decide⟩

/-- Claim C8: `put` of the string `"hello"` with no options encodes exactly
`put 0 0 60 5\r\nhello\r\n`; feeding `INSERTED 1\r\n` back resolves the put
with the number 1; a reserve fed `RESERVED 1 5\r\nhello\r\n` resolves with
id 1 and payload `"hello"`. -/
theorem claim8_put_reserve_concrete :
    putEncode (some (.str "hello")) ⟨none, none, none⟩
      = .ok (utf8Encode "put 0 0 60 5\r\nhello\r\n")
    ∧ (onData (submitCommand emptyClient 0 putHandlers) (utf8Encode "INSERTED 1\r\n")).events
        = [.resolve 0 (.num 1)]
    ∧ (onData (submitCommand emptyClient 0 (reserveHandlers [] true))
          (utf8Encode "RESERVED 1 5\r\nhello\r\n")).events
        = [.resolve 0 (.jobStr 1 "hello")] := by
  exact ⟨by decide, by decide, by decide⟩

/-- Counterexample to claim C9 as stated: invoking `pauseTube` with a missing
tube name does not reject at encode time — the encoder has no `assert`, the
missing name is interpolated as the text `undefined`, bytes are written to
the socket, and an execution is pushed onto the queue. -/
theorem claim9_counterexample :
    (invokeCommand ⟨emptyClient, []⟩ 0 (pauseTubeEncode none none) [.pauseTubeS]).written
      = utf8Encode "pause-tube undefined 0"
    ∧ (invokeCommand ⟨emptyClient, []⟩ 0 (pauseTubeEncode none none)
        [.pauseTubeS]).client.executions ≠ [] := by
  exact ⟨by decide, by decide⟩

/-- Claim C9 (amended): an encoder error propagates before any bytes are
written and before any execution is enqueued, and every listed command other
than `pauseTube` does reject a missing required argument at encode time;
`pauseTube` performs no such validation. -/
theorem claim9_amended_usage_errors :
    (∀ (conn : Conn) (tag : Nat) (handlers : List Step) (e : JsError)
        (enc : Except JsError (List Nat)), enc = .error e →
        invokeCommand conn tag enc handlers = conn)
    ∧ putEncode none ⟨none, none, none⟩ = .error .assertionError
    ∧ useEncode none = .error .assertionError
    ∧ watchEncode none = .error .assertionError
    ∧ ignoreEncode none = .error .assertionError
    ∧ deleteEncode none = .error .assertionError
    ∧ releaseEncode none ⟨none, none⟩ = .error .assertionError
    ∧ buryEncode none none = .error .assertionError
    ∧ touchEncode none = .error .assertionError
    ∧ kickEncode none = .error .assertionError
    ∧ invokeCommand ⟨emptyClient, []⟩ 0 (pauseTubeEncode none none) [.pauseTubeS]
        = ⟨{ emptyClient with executions := [⟨0, 0, [.pauseTubeS]⟩] },
           utf8Encode "pause-tube undefined 0"⟩ := by
  refine ⟨?_, by decide, by decide, by decide, by decide, by decide, by decide, by decide,
    by decide, by decide, by decide⟩
  intro conn tag handlers e enc h
  subst h
  rfl

/-- Witness for claim C9: an erroring encoder leaves the connection
unchanged. -/
theorem claim9_witness :
    invokeCommand ⟨emptyClient, []⟩ 3 (Except.error JsError.assertionError) putHandlers
      = ⟨emptyClient, []⟩ :=
  claim9_amended_usage_errors.1 ⟨emptyClient, []⟩ 3 putHandlers .assertionError
    (Except.error JsError.assertionError) rfl

theorem utf8Encode_append (a b : String) :
    utf8Encode (a ++ b) = utf8Encode a ++ utf8Encode b := by
  simp [utf8Encode, String.data_append]

/-- Claim C10: an explicit `ttr = 0` (and likewise `priority = 0`, `delay = 0`)
is replaced by the encoder's default because `0` is falsy under `||`, so the
wire line of that call carries `ttr 60`; in general the ttr field of every
successfully encoded put command line is `ttr || 60`, which is never `0`. -/
theorem claim10_ttr_default :
    putEncode (some (.str "x")) ⟨some 0, some 0, some 0⟩
      = .ok (utf8Encode "put 0 0 60 1\r\nx\r\n")
    ∧ (∀ t : Option Nat, jsOr t 60 ≠ 0)
    ∧ (∀ (p : JackdPayload) (opts : JackdPutOpts) (bytes : List Nat),
        putEncode (some p) opts = .ok bytes →
        ∃ r, bytes = utf8Encode ("put " ++ toString (jsOr opts.priority 0) ++ " " ++
          toString (jsOr opts.delay 0) ++ " " ++ toString (jsOr opts.ttr 60) ++ " ") ++ r) := by
  refine ⟨by decide, ?_, ?_⟩
  · intro t
    rcases t with _ | n
    · simp [jsOr]
    · by_cases hn : n = 0 <;> simp [jsOr, hn]
  · intro p opts bytes h
    simp only [putEncode] at h
    by_cases ht : payloadTruthy p
    · rw [if_pos ht] at h
      refine ⟨utf8Encode (toString (putBody p).length ++ "\r\n") ++ putBody p
        ++ delimiterBytes, ?_⟩
      rw [← Except.ok.inj h]
      simp [utf8Encode_append, List.append_assoc]
    · rw [if_neg ht] at h
      simp at h

/-- Witness for claim C10: the general decomposition of the put command line
applied to the concrete call with `priority = delay = ttr = 0`. -/
theorem claim10_witness :
    ∃ r, utf8Encode "put 0 0 60 1\r\nx\r\n"
      = utf8Encode ("put " ++ toString (jsOr (some 0) 0) ++ " " ++ toString (jsOr (some 0) 0)
          ++ " " ++ toString (jsOr (some 0) 60) ++ " ") ++ r :=
  claim10_ttr_default.2.2 (.str "x") ⟨some 0, some 0, some 0⟩
    (utf8Encode "put 0 0 60 1\r\nx\r\n") claim10_ttr_default.1
